import Mathlib

/-!
Verification of the parameter-synchronization core of dist-keras
(src/distkeras/distributed_models.py) against its specification.

Conventions of the embedding:

* numpy tensors are modelled as shape-tagged lists of rational numbers; every
  concrete value appearing in the specification (1.0, 2.0, 0.5, 1.5) is
  exactly representable, so exact arithmetic is faithful on these inputs;
* a serialized blob is modelled as `Option PSet`: `some p` is a blob that
  unpickles to `p`, `none` is a malformed body;
* a Python expression that raises is modelled as `Except.error` carrying the
  exception; an attribute that no statement of the module ever assigns is
  modelled as an `Option` field that every constructor sets to `none`;
* the helper modules `distkeras.networking` and `distkeras.optimizers` are not
  under src/; where a claim depends on them they are modelled from the
  specification, and each such definition says so in its doc comment.
-/

namespace DistKeras

/-- Python exceptions that the embedded code can raise. -/
inductive PyErr where
  | nameError (n : String)
  | attributeError (n : String)
  | unpicklingError
  | shapeMismatch
  deriving DecidableEq, Repr

/-- One numpy tensor: a shape together with its (flattened) entries. -/
structure Tensor where
  shape : List Nat
  data : List ℚ
  deriving DecidableEq, Repr

/-- ParameterSet: the ordered sequence of tensors of a model, as returned by
`get_weights` of the keras model collaborator. -/
abbrev PSet := List Tensor

/-- Shape sequence of a ParameterSet. -/
def shapesOf (p : PSet) : List (List Nat) := p.map Tensor.shape

/-- Serialized blob: `some p` deserializes to `p`, `none` is malformed. -/
abbrev Blob := Option PSet

/-- Model of `pickle.loads` applied to a request body. -/
def pickle_loads (b : Blob) : Except PyErr PSet :=
  match b with
  | some p => .ok p
  | none => .error .unpicklingError

/-- Modelled from the spec: the optimizer object comes from
`distkeras.optimizers`, which is not under src/.  Section 4.3 requires
`combine(current, delta)` to validate that the shape sequences match and to
treat a mismatch as a fatal error for that single call; the additive
UpdateRule used by the end-to-end test of section 8 adds the delta to the
current parameters elementwise. -/
def additiveGetUpdates (current delta : PSet) : Except PyErr PSet :=
  if shapesOf current = shapesOf delta then
    .ok ((current.zip delta).map
      (fun t => Tensor.mk t.1.shape (List.zipWith (· + ·) t.1.data t.2.data)))
  else
    .error .shapeMismatch

/-- Modelled from the spec: a full-replacement UpdateRule (the data model of
section 3 admits Deltas that are raw parameter values installed verbatim);
like every rule it must validate the shapes first. -/
def replaceGetUpdates (current delta : PSet) : Except PyErr PSet :=
  if shapesOf current = shapesOf delta then
    .ok delta
  else
    .error .shapeMismatch

/-- Opaque keras model collaborator: its weights, its `get_config` value and
its `to_json` architecture string. -/
structure KerasModel where
  weights : PSet
  config : String
  arch_json : String
  deriving DecidableEq, Repr

/-- Fields of a `DistributedModel` instance (lines 35 to 41 of the source).
`mode` is read by `get_config` but assigned by no statement of the module, so
it is an `Option` field that every constructor leaves at `none`. -/
structure DistributedModelState where
  master_model : KerasModel
  weights : PSet
  master_address : String
  master_port : Nat
  optimizer_config : String
  mode : Option String
  deriving DecidableEq, Repr

/-- Embedding of `DistributedModel.__init__`: stores the model, copies its
weights into `self.weights`, records the address, port and optimizer. -/
def distributedModel_init (keras_model : KerasModel) (optimizer_config host : String)
    (master_port : Nat) : DistributedModelState :=
  { master_model := keras_model
    weights := keras_model.weights
    master_address := host
    master_port := master_port
    optimizer_config := optimizer_config
    mode := none }

/-- Name lookup for the identifier `picle` in `route_parameters` (line 53 of
the source, `pickled_weights = picle.dumps(self.master_model.get_weights())`):
the module imports `cPickle as pickle` and binds no name `picle`, so
evaluating `picle.dumps` raises `NameError`, before the argument
`self.master_model.get_weights()` is evaluated. -/
def picleDumps : Except PyErr (PSet → Blob) := .error (.nameError "picle")

/-- Embedding of the `GET /parameters` handler `route_parameters`: under
`self.mutex` it evaluates `picle.dumps(self.master_model.get_weights())` and
would return the resulting blob.  Note the handler serializes the weights of
`self.master_model`, not the `self.weights` field that `update_parameters`
assigns. -/
def route_parameters (s : DistributedModelState) : Except PyErr Blob := do
  let dumps ← picleDumps
  pure (dumps s.master_model.weights)

/-- Embedding of the `POST /update` handler `update_parameters`:
`pickle.loads(request.data)` runs outside the mutex; under the mutex the
handler computes `self.optimizer.get_updates(self.weights, delta,
constraints)` and assigns the result to `self.weights`.  If either step
raises, the assignment has not happened and the instance is unchanged.  The
optimizer collaborator is passed as `rule`. -/
def update_parameters (rule : PSet → PSet → Except PyErr PSet)
    (s : DistributedModelState) (body : Blob) : Except PyErr DistributedModelState := do
  let delta ← pickle_loads body
  let w ← rule s.weights delta
  pure { s with weights := w }

/-- One HTTP request to the parameter service. -/
inductive Request where
  | fetch
  | submit (body : Blob)
  deriving DecidableEq, Repr

/-- Outcome of one request as seen by the client. -/
inductive Response where
  | payload (b : Blob)
  | ack
  | failure (e : PyErr)
  deriving DecidableEq, Repr

/-- One request served by the Flask application: a handler that raises yields
a request-level failure (an HTTP 500 response) and leaves the instance as the
handler left it; the serving process itself continues and can serve further
requests. -/
def serverStep (rule : PSet → PSet → Except PyErr PSet) (s : DistributedModelState) :
    Request → DistributedModelState × Response
  | .fetch =>
    match route_parameters s with
    | .ok b => (s, .payload b)
    | .error e => (s, .failure e)
  | .submit b =>
    match update_parameters rule s b with
    | .ok t => (t, .ack)
    | .error e => (s, .failure e)

/-- Embedding of `DistributedModel.get_config` (lines 81 to 87): the
dictionary entries for the model and the optimizer come from the
collaborators; the final line reads `self.mode`, which no statement of the
module assigns, so on every constructed instance the read raises
`AttributeError`. -/
def DistributedModel.get_config (s : DistributedModelState) :
    Except PyErr (List (String × String)) :=
  match s.mode with
  | some m =>
    .ok [("model", s.master_model.config), ("optimizer", s.optimizer_config), ("mode", m)]
  | none => .error (.attributeError "mode")

/-- Embedding of `get_master_url`. -/
def get_master_url (s : DistributedModelState) : String :=
  s.master_address ++ ":" ++ toString s.master_port

/-- Training configuration dictionary handed to `train`. -/
structure TrainConfig where
  nb_epoch : Nat
  batch_size : Nat
  deriving DecidableEq, Repr

/-- Fields of a `SparkWorker` instance: exactly the attributes assigned by
`SparkWorker.__init__` (lines 138 to 144).  The constructor assigns the
`frequency` argument to `self.train_config` (the `train_config` argument is
discarded) and assigns no `frequency` attribute at all. -/
structure SparkWorker where
  json_model : String
  optimizer : String
  loss : String
  train_config : String
  master_url : String
  deriving DecidableEq, Repr

/-- Embedding of `SparkWorker.__init__`.  The `train_config` parameter is
accepted and discarded; the field `train_config` receives `frequency`. -/
def sparkWorker_init (json_model optimizer loss : String) (_tc : TrainConfig)
    (frequency master_url : String) : SparkWorker :=
  { json_model := json_model
    optimizer := optimizer
    loss := loss
    train_config := frequency
    master_url := master_url }

/-- One record of a data partition: a feature vector and a label vector. -/
abbrev Record := List ℚ × List ℚ

/-- Observable actions of one worker invocation: a `GET /parameters`, a
`POST /update` with a delta, or one yielded output of the generator. -/
inductive WEvent where
  | fetch
  | submit (d : PSet)
  | yielded
  deriving DecidableEq, Repr

/-- Embedding of `SparkWorker.train` run to completion on one partition,
returning the events performed and the exception, if any, that ended the
generator.  The body first materializes `x_train`; when its size is zero
(every feature vector empty, in particular a partition with zero records) it
returns before doing anything: no yields, no requests, normal end of the
generator.  Otherwise the next statement, `model = model_from_json(json_model)`
(line 155), reads the unbound name `json_model` — the instance attribute would
be `self.json_model` — and raises `NameError` before any fetch or submit.
Every later statement, including `model.compile(optimizer=solf.optimizer, ...)`
(another unbound name), the read of the never-assigned `self.frequency`, the
whole synchronization loop, and the `else` branch that only prints
`Unknown frequency method.` and falls through to `yield []`, is unreachable. -/
def SparkWorker.train (_w : SparkWorker) (data : List Record) :
    List WEvent × Option PyErr :=
  if data.all (fun r => r.1.isEmpty) then
    ([], none)
  else
    ([], some (.nameError "json_model"))

/-- Coordinator-side lifecycle events of `SparkModel.train`. -/
inductive CEvent where
  | startServer
  | repartition (n : Nat)
  | dispatchWorkers
  | fetchFinal
  | setWeights
  | stopServer
  deriving DecidableEq, Repr

/-- Fields of a `SparkModel` instance: the inherited `DistributedModel` fields
plus the ones assigned by `SparkModel.__init__` (lines 101 to 107).  The
attributes `loss` and `frequency` are read by `_train` but assigned by no
statement of the module, so they are `Option` fields that the constructor
leaves at `none`. -/
structure SparkModelState where
  base : DistributedModelState
  num_workers : Nat
  loss : Option String
  frequency : Option String
  deriving DecidableEq, Repr

/-- Embedding of `SparkModel.__init__`, which calls the super constructor and
then stores the Spark context, the dataset and the worker count.  Neither
constructor assigns `loss` or `frequency`. -/
def sparkModel_init (keras_model : KerasModel) (optimizer_config host : String)
    (master_port num_workers : Nat) : SparkModelState :=
  { base := distributedModel_init keras_model optimizer_config host master_port
    num_workers := num_workers
    loss := none
    frequency := none }

/-- Embedding of `SparkModel.get_config`, inherited from `DistributedModel`. -/
def SparkModel.get_config (m : SparkModelState) : Except PyErr (List (String × String)) :=
  DistributedModel.get_config m.base

/-- Embedding of `SparkModel.train` and `_train` (lines 113 to 133) run on the
given partitions: start the server, repartition the dataset, then `_train`
builds the `SparkWorker` with keyword arguments.  Evaluating `loss=self.loss`
raises `AttributeError` because no statement of the module assigns
`self.loss`; `frequency=self.frequency` would raise likewise.  The later
stages — dispatching one worker per partition and collecting, fetching the
final weights with `get_master_weights` (a `GET /parameters`, whose handler
raises `NameError` on `picle`), the conditional `set_weights` and the final
`stop_server` — are modelled for completeness but are unreachable from any
instance built by the constructors. -/
def SparkModel.train (m : SparkModelState) (tc : TrainConfig)
    (partitions : List (List Record)) : List CEvent × Option PyErr :=
  let ev0 := [CEvent.startServer, CEvent.repartition m.num_workers]
  match m.loss with
  | none => (ev0, some (.attributeError "loss"))
  | some loss =>
    match m.frequency with
    | none => (ev0, some (.attributeError "frequency"))
    | some freq =>
      let w := sparkWorker_init m.base.master_model.arch_json m.base.optimizer_config
        loss tc freq (get_master_url m.base)
      let runs := partitions.map (fun p => SparkWorker.train w p)
      let ev1 := ev0 ++ [CEvent.dispatchWorkers]
      match (runs.filterMap Prod.snd).head? with
      | some e => (ev1, some e)
      | none =>
        let ev2 := ev1 ++ [CEvent.fetchFinal]
        match route_parameters m.base with
        | .error e => (ev2, some e)
        | .ok b =>
          let new_weights := b.getD []
          if new_weights.isEmpty then (ev2 ++ [CEvent.stopServer], none)
          else (ev2 ++ [CEvent.setWeights, CEvent.stopServer], none)

/-- Program counter of one Submit request thread inside `update_parameters`:
running `pickle.loads` (outside the mutex), waiting to acquire `self.mutex`,
about to read `self.weights`, about to combine and assign, and the two
terminal states (handler returned, handler raised). -/
inductive SPh where
  | toParse
  | toAcquire
  | toRead
  | toCombine
  | doneOk
  | doneFail
  deriving DecidableEq, Repr

/-- Shared state of the server process while `n` Submit requests are in
flight: the parameter store, the mutex owner, and per-thread control state.
`log` records, in order, the threads whose mutex-protected critical section
has completed (successfully or by raising). -/
structure CSt (n : Nat) where
  weights : PSet
  lock : Option (Fin n)
  ph : Fin n → SPh
  localW : Fin n → PSet
  parsed : Fin n → PSet
  log : List (Fin n)

/-- Initial state: the store holds `w0` and every request thread is about to
run `pickle.loads`. -/
def initSt (n : Nat) (w0 : PSet) : CSt n :=
  { weights := w0
    lock := none
    ph := fun _ => .toParse
    localW := fun _ => []
    parsed := fun _ => []
    log := [] }

/-- Effect of one Submit request on the stored weights when run alone: a body
that fails to unpickle, or a delta the rule rejects, leaves the store
unchanged; otherwise the store receives the combined parameters (this is the
weight component of `update_parameters` with the failure case kept). -/
def submitWeights (rule : PSet → PSet → Except PyErr PSet) (w : PSet) (b : Blob) : PSet :=
  match pickle_loads b with
  | .error _ => w
  | .ok d =>
    match rule w d with
    | .error _ => w
    | .ok t => t

/-- Interleaving semantics of `n` concurrent Submit requests against one
`DistributedModel` instance.  The deserialization step touches no shared
state; the mutex is acquired only when free; the read of `self.weights` and
the combine-and-assign both run while holding the mutex; and the mutex is
released when the critical section finishes, whether the rule returned or
raised (the `with self.mutex` statement releases on exceptions too). -/
inductive cstep (rule : PSet → PSet → Except PyErr PSet) {n : Nat}
    (bodies : Fin n → Blob) : CSt n → CSt n → Prop where
  | parseOk (s : CSt n) (i : Fin n) (d : PSet)
      (hph : s.ph i = .toParse) (hp : pickle_loads (bodies i) = .ok d) :
      cstep rule bodies s
        { s with ph := Function.update s.ph i .toAcquire,
                 parsed := Function.update s.parsed i d }
  | parseFail (s : CSt n) (i : Fin n) (e : PyErr)
      (hph : s.ph i = .toParse) (hp : pickle_loads (bodies i) = .error e) :
      cstep rule bodies s { s with ph := Function.update s.ph i .doneFail }
  | acquire (s : CSt n) (i : Fin n)
      (hph : s.ph i = .toAcquire) (hl : s.lock = none) :
      cstep rule bodies s
        { s with lock := some i,
                 ph := Function.update s.ph i .toRead }
  | readWeights (s : CSt n) (i : Fin n) (hph : s.ph i = .toRead) :
      cstep rule bodies s
        { s with localW := Function.update s.localW i s.weights,
                 ph := Function.update s.ph i .toCombine }
  | combineOk (s : CSt n) (i : Fin n) (w : PSet)
      (hph : s.ph i = .toCombine) (hr : rule (s.localW i) (s.parsed i) = .ok w) :
      cstep rule bodies s
        { s with weights := w,
                 lock := none,
                 ph := Function.update s.ph i .doneOk,
                 log := s.log ++ [i] }
  | combineFail (s : CSt n) (i : Fin n) (e : PyErr)
      (hph : s.ph i = .toCombine) (hr : rule (s.localW i) (s.parsed i) = .error e) :
      cstep rule bodies s
        { s with lock := none,
                 ph := Function.update s.ph i .doneFail,
                 log := s.log ++ [i] }

/-- Invariant tying the shared state of the interleaving semantics to the
serial effects of the completed critical sections. -/
structure CInv (rule : PSet → PSet → Except PyErr PSet) {n : Nat}
    (bodies : Fin n → Blob) (w0 : PSet) (s : CSt n) : Prop where
  weights_eq : s.weights = s.log.foldl (fun w i => submitWeights rule w (bodies i)) w0
  nodup : s.log.Nodup
  log_done : ∀ i ∈ s.log, s.ph i = .doneOk ∨ s.ph i = .doneFail
  lock_own : ∀ i, (s.ph i = .toRead ∨ s.ph i = .toCombine) → s.lock = some i
  parsed_ok : ∀ i, (s.ph i = .toAcquire ∨ s.ph i = .toRead ∨ s.ph i = .toCombine) →
    pickle_loads (bodies i) = .ok (s.parsed i)
  local_eq : ∀ i, s.ph i = .toCombine → s.localW i = s.weights
  fail_unlogged : ∀ i, s.ph i = .doneFail → i ∉ s.log →
    pickle_loads (bodies i) = .error .unpicklingError
  ok_logged : ∀ i, s.ph i = .doneOk → i ∈ s.log

-- Concrete values of the end-to-end test of section 8 of the specification.

/-- Two-tensor parameter set `[[1.0],[2.0]]`. -/
def psetInit : PSet := [⟨[1], [1]⟩, ⟨[1], [2]⟩]

/-- Difference-style delta `[[0.5],[-0.5]]`. -/
def deltaHalf : PSet := [⟨[1], [1/2]⟩, ⟨[1], [-(1/2)]⟩]

/-- Expected post-update parameter set `[[1.5],[1.5]]`. -/
def psetAfter : PSet := [⟨[1], [3/2]⟩, ⟨[1], [3/2]⟩]

/-- Server instance freshly constructed around `psetInit`. -/
def srv0 : DistributedModelState :=
  distributedModel_init
    { weights := psetInit, config := "cfg", arch_json := "arch" } "sgd" "127.0.0.1" 5000

/-- Body function of the single-submit linearizability example. -/
def oneBody : Fin 1 → Blob := fun _ => some deltaHalf

-- Explicit states of the single-submit execution used by the witness of the
-- linearizability theorem.

def c8s0 : CSt 1 := initSt 1 psetInit

def c8s1 : CSt 1 :=
  { c8s0 with ph := Function.update c8s0.ph 0 .toAcquire,
              parsed := Function.update c8s0.parsed 0 deltaHalf }

def c8s2 : CSt 1 :=
  { c8s1 with lock := some 0,
              ph := Function.update c8s1.ph 0 .toRead }

def c8s3 : CSt 1 :=
  { c8s2 with localW := Function.update c8s2.localW 0 c8s2.weights,
              ph := Function.update c8s2.ph 0 .toCombine }

def c8s4 : CSt 1 :=
  { c8s3 with weights := deltaHalf,
              lock := none,
              ph := Function.update c8s3.ph 0 .doneOk,
              log := c8s3.log ++ [0] }

/-!
Theorems.  Each claim of the specification audit is settled by exactly one
theorem below; shared helper lemmas carry no claim id.
-/

/-- Helper: the additive rule on the concrete end-to-end values of section 8
produces `[[1.5],[1.5]]`. -/
theorem additive_on_test_values : additiveGetUpdates psetInit deltaHalf = .ok psetAfter := by
  simp [additiveGetUpdates, psetInit, deltaHalf, psetAfter, shapesOf]
  norm_num

/-- Helper: the concrete Submit against `srv0` succeeds and stores
`[[1.5],[1.5]]` in the `weights` field, leaving every other field alone. -/
theorem update_srv0_deltaHalf :
    update_parameters additiveGetUpdates srv0 (some deltaHalf) =
      .ok { srv0 with weights := psetAfter } := by
  have hform : update_parameters additiveGetUpdates srv0 (some deltaHalf) =
      Except.map (fun w => { srv0 with weights := w })
        (additiveGetUpdates srv0.weights deltaHalf) := rfl
  have hw : srv0.weights = psetInit := rfl
  rw [hform, hw, additive_on_test_values]
  rfl

/-- C1: the specification states that Fetch always succeeds while the server
is up and returns the current ParameterSet as a blob.  On every server state
the handler raises `NameError`: line 53 evaluates `picle.dumps`, and the
module binds `pickle` (via `import cPickle as pickle`) but never `picle`, so
every `GET /parameters` request fails.  The claim describes the intent; the
code contradicts it. -/
theorem c1_fetch_always_raises_name_error (s : DistributedModelState) :
    route_parameters s = .error (.nameError "picle") := rfl

/-- C2: the specification requires read-your-writes: a Fetch immediately after
a Submit reflects that Submit.  On the initial parameter set `[[1.0],[2.0]]`
an additive Submit of `[[0.5],[-0.5]]` succeeds and sets `self.weights` to
`[[1.5],[1.5]]`, but the following Fetch raises `NameError` on `picle`; and
the Fetch handler serializes `self.master_model.get_weights()`, which the
Submit handler never updates and which still holds `[[1.0],[2.0]]`. -/
theorem c2_submit_then_fetch_not_read_your_writes :
    ∃ s1, update_parameters additiveGetUpdates srv0 (some deltaHalf) = .ok s1 ∧
      s1.weights = psetAfter ∧
      route_parameters s1 = .error (.nameError "picle") ∧
      s1.master_model.weights = psetInit := by
  exact ⟨{ srv0 with weights := psetAfter }, update_srv0_deltaHalf, rfl, rfl, rfl⟩

/-- C3: the end-to-end requirement of section 8 — initialize with
`[[1.0],[2.0]]`, submit the difference-style delta `[[0.5],[-0.5]]` under an
additive rule, and Fetch must return `[[1.5],[1.5]]`.  The Submit succeeds and
stores `[[1.5],[1.5]]` in `self.weights`, but the subsequent Fetch request
fails with `NameError` on `picle` instead of returning the payload; the
worker-side delta computation cited by the claim is unreachable as well,
since `SparkWorker.train` raises `NameError` on `json_model` before it. -/
theorem c3_end_to_end_additive_submit_fetch_fails :
    ∃ s1, update_parameters additiveGetUpdates srv0 (some deltaHalf) = .ok s1 ∧
      s1.weights = psetAfter ∧
      (serverStep additiveGetUpdates s1 .fetch).2 = .failure (.nameError "picle") ∧
      ∀ b : Blob, (serverStep additiveGetUpdates s1 .fetch).2 ≠ .payload b := by
  refine ⟨{ srv0 with weights := psetAfter }, update_srv0_deltaHalf, rfl, rfl, ?_⟩
  intro b h
  exact Response.noConfusion h

/-- C4: the specification mandates, for the per-batch policy, a
fetch-train-submit sequence for every batch of every epoch regardless of how
the partition size compares to the batch size.  A worker built by the
constructor with the recognized policy string and a one-record partition
performs zero fetches and zero submits: `SparkWorker.train` raises `NameError`
on the unbound name `json_model` before any synchronization (and, past that
line, `solf.optimizer` and `nb_batch` are also unbound, `self.frequency` is
never assigned, and the batch loop is additionally guarded by
`x_train.shape[0] > batch_size`). -/
theorem c4_per_batch_worker_raises_before_sync :
    (sparkWorker_init "arch" "sgd" "mse" ⟨1, 32⟩ "epoch" "127.0.0.1:5000").train
      [([1], [0])] = ([], some (.nameError "json_model")) := rfl

/-- C5: a worker given an empty partition produces no output, performs zero
Fetch and zero Submit calls, and ends normally: the size-zero check at the top
of `SparkWorker.train` returns from the generator before any other statement
runs. -/
theorem c5_empty_partition_noop (w : SparkWorker) :
    w.train [] = ([], none) := rfl

/-- C6: a Submit whose body fails to deserialize, or whose delta has shapes
different from the current parameters, is rejected at request level: the
store is unchanged, the response is a failure, and the server goes on serving
every further request exactly as before. -/
theorem c6_failed_submit_leaves_store_unchanged (s : DistributedModelState) (b : Blob)
    (h : b = none ∨ ∃ d, b = some d ∧ shapesOf s.weights ≠ shapesOf d) :
    (serverStep additiveGetUpdates s (.submit b)).1 = s ∧
    (∃ e, (serverStep additiveGetUpdates s (.submit b)).2 = .failure e) ∧
    ∀ r, serverStep additiveGetUpdates ((serverStep additiveGetUpdates s (.submit b)).1) r =
      serverStep additiveGetUpdates s r := by
  have herr : ∃ e, update_parameters additiveGetUpdates s b = .error e := by
    rcases h with h | ⟨d, hb, hsh⟩
    · subst h
      exact ⟨.unpicklingError, rfl⟩
    · subst hb
      have hrule : additiveGetUpdates s.weights d = .error .shapeMismatch := by
        unfold additiveGetUpdates
        rw [if_neg hsh]
      refine ⟨.shapeMismatch, ?_⟩
      have hform : update_parameters additiveGetUpdates s (some d) =
          Except.map (fun w => { s with weights := w }) (additiveGetUpdates s.weights d) := rfl
      rw [hform, hrule]
      rfl
  rcases herr with ⟨e, he⟩
  have h1 : (serverStep additiveGetUpdates s (.submit b)).1 = s := by
    simp [serverStep, he]
  refine ⟨h1, ⟨e, by simp [serverStep, he]⟩, ?_⟩
  intro r
  rw [h1]

/-- Witness for C6: a malformed body against the concrete server `srv0`. -/
theorem c6_witness :
    ((none : Blob) = none ∨ ∃ d, (none : Blob) = some d ∧ shapesOf srv0.weights ≠ shapesOf d) ∧
    ((serverStep additiveGetUpdates srv0 (.submit none)).1 = srv0 ∧
     (∃ e, (serverStep additiveGetUpdates srv0 (.submit none)).2 = .failure e) ∧
     ∀ r, serverStep additiveGetUpdates ((serverStep additiveGetUpdates srv0 (.submit none)).1) r =
       serverStep additiveGetUpdates srv0 r) :=
  ⟨Or.inl rfl, c6_failed_submit_leaves_store_unchanged srv0 none (Or.inl rfl)⟩

/-- C7: a worker configured with a synchronization policy other than the
recognized one fails hard for any partition carrying data instead of silently
completing without synchronizing: `SparkWorker.train` raises `NameError`
(on the unbound `json_model`) before the policy dispatch is even reached, so
no such worker ever completes silently. -/
theorem c7_unknown_policy_fails_fast (json_model optimizer loss : String)
    (tc : TrainConfig) (freq master_url : String) (data : List Record)
    (_hfreq : freq ≠ "epoch") (hdata : data.all (fun r => r.1.isEmpty) = false) :
    (sparkWorker_init json_model optimizer loss tc freq master_url).train data =
      ([], some (.nameError "json_model")) := by
  simp [SparkWorker.train, hdata]

/-- Witness for C7: the unrecognized policy string `batch` on a one-record
partition. -/
theorem c7_witness :
    ("batch" ≠ "epoch") ∧
    ([(([1] : List ℚ), ([0] : List ℚ))].all (fun r => r.1.isEmpty)) = false ∧
    (sparkWorker_init "arch" "sgd" "mse" ⟨1, 32⟩ "batch" "127.0.0.1:5000").train
      [([1], [0])] = ([], some (.nameError "json_model")) :=
  ⟨by decide, by decide,
    c7_unknown_policy_fails_fast "arch" "sgd" "mse" ⟨1, 32⟩ "batch" "127.0.0.1:5000"
      [([1], [0])] (by decide) (by decide)⟩

/-- Helper: `pickle_loads` has only one failure value. -/
theorem pickle_loads_error_eq {b : Blob} {e : PyErr} (h : pickle_loads b = .error e) :
    pickle_loads b = .error .unpicklingError := by
  cases b with
  | some p => exact absurd h (by simp [pickle_loads])
  | none => rfl

/-- Helper: a successfully parsed body is the blob of its parse result. -/
theorem pickle_loads_ok_eq {b : Blob} {d : PSet} (h : pickle_loads b = .ok d) :
    b = some d := by
  cases b with
  | some p =>
    have : p = d := by
      simpa [pickle_loads] using h
    rw [this]
  | none => exact absurd h (by simp [pickle_loads])

/-- Helper: `submitWeights` is exactly the effect of one sequential Submit
request on the stored weights. -/
theorem submitWeights_eq_serverStep (rule : PSet → PSet → Except PyErr PSet)
    (s : DistributedModelState) (b : Blob) :
    ((serverStep rule s (.submit b)).1).weights = submitWeights rule s.weights b := by
  cases b with
  | none => rfl
  | some d =>
    have hu : update_parameters rule s (some d) =
        Except.map (fun w => { s with weights := w }) (rule s.weights d) := rfl
    have hs2 : submitWeights rule s.weights (some d) =
        (match rule s.weights d with
         | .error _ => s.weights
         | .ok t => t) := rfl
    show (match update_parameters rule s (some d) with
          | .ok t => (t, Response.ack)
          | .error e => (s, Response.failure e)).1.weights =
        submitWeights rule s.weights (some d)
    rw [hu, hs2]
    cases hr : rule s.weights d with
    | ok w => rfl
    | error e => rfl

/-- Helper: a fold whose function fixes every element of the list is the
identity on the accumulator. -/
theorem foldl_eq_of_forall_id {α β : Type _} (f : β → α → β) (l : List α)
    (h : ∀ a ∈ l, ∀ w, f w a = w) (w : β) : l.foldl f w = w := by
  induction l generalizing w with
  | nil => rfl
  | cons a t ih =>
    rw [List.foldl_cons, h a (List.mem_cons_self a t)]
    exact ih (fun x hx w2 => h x (List.mem_cons_of_mem a hx) w2) w

/-- Helper: a duplicate-free list of `Fin n`, followed by the missing
elements, is a permutation of `finRange n`. -/
theorem log_perm_finRange {n : Nat} (l : List (Fin n)) (hnd : l.Nodup) :
    (l ++ (List.finRange n).filter (fun i => decide (i ∉ l))).Perm (List.finRange n) := by
  have h1 : l.Perm ((List.finRange n).filter (fun i => decide (i ∈ l))) := by
    refine (List.perm_ext_iff_of_nodup hnd ((List.nodup_finRange n).filter _)).2 ?_
    intro a
    simp [List.mem_filter, List.mem_finRange]
  refine (h1.append_right _).trans ?_
  have h2 := List.filter_append_perm (fun i => decide (i ∈ l)) (List.finRange n)
  simpa [decide_not] using h2

/-- Helper: the invariant holds in the initial state. -/
theorem cinv_init (rule : PSet → PSet → Except PyErr PSet) {n : Nat}
    (bodies : Fin n → Blob) (w0 : PSet) : CInv rule bodies w0 (initSt n w0) := by
  refine ⟨rfl, List.nodup_nil, ?_, ?_, ?_, ?_, ?_, ?_⟩
  · intro i hi
    exact absurd hi (List.not_mem_nil i)
  · intro i hi
    simp [initSt] at hi
  · intro i hi
    simp [initSt] at hi
  · intro i hi
    simp [initSt] at hi
  · intro i hi
    simp [initSt] at hi
  · intro i hi
    simp [initSt] at hi

/-- Helper: every interleaving step preserves the invariant. -/
theorem cinv_step {rule : PSet → PSet → Except PyErr PSet} {n : Nat}
    {bodies : Fin n → Blob} {w0 : PSet} {s t : CSt n}
    (inv : CInv rule bodies w0 s) (hst : cstep rule bodies s t) :
    CInv rule bodies w0 t := by
  cases hst with
  | parseOk i d hph hp =>
    refine ⟨inv.weights_eq, inv.nodup, ?_, ?_, ?_, ?_, ?_, ?_⟩
    · intro j hj
      by_cases hji : j = i
      · subst hji
        have hd := inv.log_done j hj
        rw [hph] at hd
        exact absurd hd (by decide)
      · simp only [Function.update_noteq hji]
        exact inv.log_done j hj
    · intro j hj
      by_cases hji : j = i
      · subst hji
        simp only [Function.update_same] at hj
        exact absurd hj (by decide)
      · simp only [Function.update_noteq hji] at hj
        exact inv.lock_own j hj
    · intro j hj
      by_cases hji : j = i
      · subst hji
        simp only [Function.update_same]
        exact hp
      · simp only [Function.update_noteq hji] at hj ⊢
        exact inv.parsed_ok j hj
    · intro j hj
      by_cases hji : j = i
      · subst hji
        simp only [Function.update_same] at hj
        exact absurd hj (by decide)
      · simp only [Function.update_noteq hji] at hj
        exact inv.local_eq j hj
    · intro j hj hnl
      by_cases hji : j = i
      · subst hji
        simp only [Function.update_same] at hj
        exact absurd hj (by decide)
      · simp only [Function.update_noteq hji] at hj
        exact inv.fail_unlogged j hj hnl
    · intro j hj
      by_cases hji : j = i
      · subst hji
        simp only [Function.update_same] at hj
        exact absurd hj (by decide)
      · simp only [Function.update_noteq hji] at hj
        exact inv.ok_logged j hj
  | parseFail i e hph hp =>
    refine ⟨inv.weights_eq, inv.nodup, ?_, ?_, ?_, ?_, ?_, ?_⟩
    · intro j hj
      by_cases hji : j = i
      · subst hji
        simp only [Function.update_same]
        exact Or.inr trivial
      · simp only [Function.update_noteq hji]
        exact inv.log_done j hj
    · intro j hj
      by_cases hji : j = i
      · subst hji
        simp only [Function.update_same] at hj
        exact absurd hj (by decide)
      · simp only [Function.update_noteq hji] at hj
        exact inv.lock_own j hj
    · intro j hj
      by_cases hji : j = i
      · subst hji
        simp only [Function.update_same] at hj
        exact absurd hj (by decide)
      · simp only [Function.update_noteq hji] at hj
        exact inv.parsed_ok j hj
    · intro j hj
      by_cases hji : j = i
      · subst hji
        simp only [Function.update_same] at hj
        exact absurd hj (by decide)
      · simp only [Function.update_noteq hji] at hj
        exact inv.local_eq j hj
    · intro j hj hnl
      by_cases hji : j = i
      · subst hji
        exact pickle_loads_error_eq hp
      · simp only [Function.update_noteq hji] at hj
        exact inv.fail_unlogged j hj hnl
    · intro j hj
      by_cases hji : j = i
      · subst hji
        simp only [Function.update_same] at hj
        exact absurd hj (by decide)
      · simp only [Function.update_noteq hji] at hj
        exact inv.ok_logged j hj
  | acquire i hph hl =>
    refine ⟨inv.weights_eq, inv.nodup, ?_, ?_, ?_, ?_, ?_, ?_⟩
    · intro j hj
      by_cases hji : j = i
      · subst hji
        have hd := inv.log_done j hj
        rw [hph] at hd
        exact absurd hd (by decide)
      · simp only [Function.update_noteq hji]
        exact inv.log_done j hj
    · intro j hj
      by_cases hji : j = i
      · subst hji
        rfl
      · simp only [Function.update_noteq hji] at hj
        have h2 := inv.lock_own j hj
        rw [hl] at h2
        exact Option.noConfusion h2
    · intro j hj
      by_cases hji : j = i
      · subst hji
        exact inv.parsed_ok j (Or.inl hph)
      · simp only [Function.update_noteq hji] at hj
        exact inv.parsed_ok j hj
    · intro j hj
      by_cases hji : j = i
      · subst hji
        simp only [Function.update_same] at hj
        exact absurd hj (by decide)
      · simp only [Function.update_noteq hji] at hj
        exact inv.local_eq j hj
    · intro j hj hnl
      by_cases hji : j = i
      · subst hji
        simp only [Function.update_same] at hj
        exact absurd hj (by decide)
      · simp only [Function.update_noteq hji] at hj
        exact inv.fail_unlogged j hj hnl
    · intro j hj
      by_cases hji : j = i
      · subst hji
        simp only [Function.update_same] at hj
        exact absurd hj (by decide)
      · simp only [Function.update_noteq hji] at hj
        exact inv.ok_logged j hj
  | readWeights i hph =>
    refine ⟨inv.weights_eq, inv.nodup, ?_, ?_, ?_, ?_, ?_, ?_⟩
    · intro j hj
      by_cases hji : j = i
      · subst hji
        have hd := inv.log_done j hj
        rw [hph] at hd
        exact absurd hd (by decide)
      · simp only [Function.update_noteq hji]
        exact inv.log_done j hj
    · intro j hj
      by_cases hji : j = i
      · subst hji
        exact inv.lock_own j (Or.inl hph)
      · simp only [Function.update_noteq hji] at hj
        exact inv.lock_own j hj
    · intro j hj
      by_cases hji : j = i
      · subst hji
        exact inv.parsed_ok j (Or.inr (Or.inl hph))
      · simp only [Function.update_noteq hji] at hj
        exact inv.parsed_ok j hj
    · intro j hj
      by_cases hji : j = i
      · subst hji
        simp only [Function.update_same]
      · simp only [Function.update_noteq hji] at hj
        have h1 := inv.lock_own j (Or.inr hj)
        have h2 := inv.lock_own i (Or.inl hph)
        rw [h1] at h2
        exact absurd (Option.some.inj h2) hji
    · intro j hj hnl
      by_cases hji : j = i
      · subst hji
        simp only [Function.update_same] at hj
        exact absurd hj (by decide)
      · simp only [Function.update_noteq hji] at hj
        exact inv.fail_unlogged j hj hnl
    · intro j hj
      by_cases hji : j = i
      · subst hji
        simp only [Function.update_same] at hj
        exact absurd hj (by decide)
      · simp only [Function.update_noteq hji] at hj
        exact inv.ok_logged j hj
  | combineOk i w hph hr =>
    have hnotin : i ∉ s.log := by
      intro hin
      have hd := inv.log_done i hin
      rw [hph] at hd
      exact absurd hd (by decide)
    have hb : bodies i = some (s.parsed i) :=
      pickle_loads_ok_eq (inv.parsed_ok i (Or.inr (Or.inr hph)))
    have hsw : submitWeights rule s.weights (bodies i) = w := by
      rw [hb]
      show (match rule s.weights (s.parsed i) with
            | .error _ => s.weights
            | .ok t => t) = w
      rw [← inv.local_eq i hph, hr]
    refine ⟨?_, ?_, ?_, ?_, ?_, ?_, ?_, ?_⟩
    · show w = (s.log ++ [i]).foldl (fun w j => submitWeights rule w (bodies j)) w0
      rw [List.foldl_append, ← inv.weights_eq]
      exact hsw.symm
    · simp only [List.nodup_append]
      refine ⟨inv.nodup, List.nodup_singleton i, ?_⟩
      intro a ha hb2
      rw [List.mem_singleton] at hb2
      subst hb2
      exact hnotin ha
    · intro j hj
      simp only [List.mem_append] at hj
      rcases hj with hj | hj
      · by_cases hji : j = i
        · subst hji
          exact absurd hj hnotin
        · simp only [Function.update_noteq hji]
          exact inv.log_done j hj
      · rw [List.mem_singleton] at hj
        subst hj
        simp only [Function.update_same]
        exact Or.inl trivial
    · intro j hj
      by_cases hji : j = i
      · subst hji
        simp only [Function.update_same] at hj
        exact absurd hj (by decide)
      · simp only [Function.update_noteq hji] at hj
        have h1 := inv.lock_own j hj
        have h2 := inv.lock_own i (Or.inr hph)
        rw [h1] at h2
        exact absurd (Option.some.inj h2) hji
    · intro j hj
      by_cases hji : j = i
      · subst hji
        simp only [Function.update_same] at hj
        exact absurd hj (by decide)
      · simp only [Function.update_noteq hji] at hj
        exact inv.parsed_ok j hj
    · intro j hj
      by_cases hji : j = i
      · subst hji
        simp only [Function.update_same] at hj
        exact absurd hj (by decide)
      · simp only [Function.update_noteq hji] at hj
        have h1 := inv.lock_own j (Or.inr hj)
        have h2 := inv.lock_own i (Or.inr hph)
        rw [h1] at h2
        exact absurd (Option.some.inj h2) hji
    · intro j hj hnl
      by_cases hji : j = i
      · subst hji
        simp only [Function.update_same] at hj
        exact absurd hj (by decide)
      · simp only [Function.update_noteq hji] at hj
        have hnl2 : j ∉ s.log := fun hmem => hnl (List.mem_append.2 (Or.inl hmem))
        exact inv.fail_unlogged j hj hnl2
    · intro j hj
      by_cases hji : j = i
      · subst hji
        exact List.mem_append.2 (Or.inr (List.mem_singleton_self j))
      · simp only [Function.update_noteq hji] at hj
        exact List.mem_append.2 (Or.inl (inv.ok_logged j hj))
  | combineFail i e hph hr =>
    have hnotin : i ∉ s.log := by
      intro hin
      have hd := inv.log_done i hin
      rw [hph] at hd
      exact absurd hd (by decide)
    have hb : bodies i = some (s.parsed i) :=
      pickle_loads_ok_eq (inv.parsed_ok i (Or.inr (Or.inr hph)))
    have hsw : submitWeights rule s.weights (bodies i) = s.weights := by
      rw [hb]
      show (match rule s.weights (s.parsed i) with
            | .error _ => s.weights
            | .ok t => t) = s.weights
      rw [← inv.local_eq i hph, hr]
    refine ⟨?_, ?_, ?_, ?_, ?_, ?_, ?_, ?_⟩
    · show s.weights = (s.log ++ [i]).foldl (fun w j => submitWeights rule w (bodies j)) w0
      rw [List.foldl_append, ← inv.weights_eq]
      exact hsw.symm
    · simp only [List.nodup_append]
      refine ⟨inv.nodup, List.nodup_singleton i, ?_⟩
      intro a ha hb2
      rw [List.mem_singleton] at hb2
      subst hb2
      exact hnotin ha
    · intro j hj
      simp only [List.mem_append] at hj
      rcases hj with hj | hj
      · by_cases hji : j = i
        · subst hji
          exact absurd hj hnotin
        · simp only [Function.update_noteq hji]
          exact inv.log_done j hj
      · rw [List.mem_singleton] at hj
        subst hj
        simp only [Function.update_same]
        exact Or.inr trivial
    · intro j hj
      by_cases hji : j = i
      · subst hji
        simp only [Function.update_same] at hj
        exact absurd hj (by decide)
      · simp only [Function.update_noteq hji] at hj
        have h1 := inv.lock_own j hj
        have h2 := inv.lock_own i (Or.inr hph)
        rw [h1] at h2
        exact absurd (Option.some.inj h2) hji
    · intro j hj
      by_cases hji : j = i
      · subst hji
        simp only [Function.update_same] at hj
        exact absurd hj (by decide)
      · simp only [Function.update_noteq hji] at hj
        exact inv.parsed_ok j hj
    · intro j hj
      by_cases hji : j = i
      · subst hji
        simp only [Function.update_same] at hj
        exact absurd hj (by decide)
      · simp only [Function.update_noteq hji] at hj
        have h1 := inv.lock_own j (Or.inr hj)
        have h2 := inv.lock_own i (Or.inr hph)
        rw [h1] at h2
        exact absurd (Option.some.inj h2) hji
    · intro j hj hnl
      by_cases hji : j = i
      · subst hji
        exact absurd (List.mem_append.2 (Or.inr (List.mem_singleton_self j))) hnl
      · simp only [Function.update_noteq hji] at hj
        have hnl2 : j ∉ s.log := fun hmem => hnl (List.mem_append.2 (Or.inl hmem))
        exact inv.fail_unlogged j hj hnl2
    · intro j hj
      by_cases hji : j = i
      · subst hji
        simp only [Function.update_same] at hj
        exact absurd hj (by decide)
      · simp only [Function.update_noteq hji] at hj
        exact List.mem_append.2 (Or.inl (inv.ok_logged j hj))

/-- Helper: the invariant holds in every reachable state. -/
theorem cinv_reach {rule : PSet → PSet → Except PyErr PSet} {n : Nat}
    {bodies : Fin n → Blob} {w0 : PSet} {s : CSt n}
    (h : Relation.ReflTransGen (cstep rule bodies) (initSt n w0) s) :
    CInv rule bodies w0 s := by
  induction h with
  | refl => exact cinv_init rule bodies w0
  | tail _ hbc ih => exact cinv_step ih hbc

/-- C8: every complete interleaved execution of `n` concurrent Submit
requests — each one deserializing outside the mutex and performing its
read-modify-write of `self.weights` entirely inside the single shared mutex,
which is released when the handler returns or raises — leaves the store equal
to some serial order of those `n` Submits (the order in which the critical
sections completed, with requests that failed to deserialize placed last);
in particular no Submit ever observes or overwrites a partial update. -/
theorem c8_concurrent_submits_linearizable {n : Nat}
    (rule : PSet → PSet → Except PyErr PSet) (bodies : Fin n → Blob) (w0 : PSet)
    (s : CSt n)
    (hreach : Relation.ReflTransGen (cstep rule bodies) (initSt n w0) s)
    (hdone : ∀ i, s.ph i = .doneOk ∨ s.ph i = .doneFail) :
    ∃ l : List (Fin n), l.Perm (List.finRange n) ∧
      s.weights = l.foldl (fun w i => submitWeights rule w (bodies i)) w0 := by
  have inv := cinv_reach hreach
  refine ⟨s.log ++ (List.finRange n).filter (fun i => decide (i ∉ s.log)),
    log_perm_finRange s.log inv.nodup, ?_⟩
  have hrest : ∀ j ∈ (List.finRange n).filter (fun i => decide (i ∉ s.log)),
      ∀ w, submitWeights rule w (bodies j) = w := by
    intro j hjf w
    rw [List.mem_filter] at hjf
    have hnl : j ∉ s.log := of_decide_eq_true hjf.2
    have hfail : s.ph j = .doneFail := by
      rcases hdone j with h | h
      · exact absurd (inv.ok_logged j h) hnl
      · exact h
    have hperr := inv.fail_unlogged j hfail hnl
    unfold submitWeights
    rw [hperr]
  rw [List.foldl_append, ← inv.weights_eq]
  exact (foldl_eq_of_forall_id _ _ hrest s.weights).symm

/-- Witness for C8: the explicit four-step execution of one Submit of
`[[0.5],[-0.5]]` (full-replacement rule) against `[[1.0],[2.0]]`. -/
theorem c8_witness : ∃ l : List (Fin 1), l.Perm (List.finRange 1) ∧
    deltaHalf = l.foldl (fun w i => submitWeights replaceGetUpdates w (oneBody i)) psetInit := by
  have h1 : cstep replaceGetUpdates oneBody c8s0 c8s1 :=
    cstep.parseOk c8s0 0 deltaHalf rfl rfl
  have h2 : cstep replaceGetUpdates oneBody c8s1 c8s2 :=
    cstep.acquire c8s1 0 rfl rfl
  have h3 : cstep replaceGetUpdates oneBody c8s2 c8s3 :=
    cstep.readWeights c8s2 0 rfl
  have h4 : cstep replaceGetUpdates oneBody c8s3 c8s4 :=
    cstep.combineOk c8s3 0 deltaHalf rfl rfl
  have hreach : Relation.ReflTransGen (cstep replaceGetUpdates oneBody)
      (initSt 1 psetInit) c8s4 :=
    Relation.ReflTransGen.tail (Relation.ReflTransGen.tail (Relation.ReflTransGen.tail
      (Relation.ReflTransGen.tail Relation.ReflTransGen.refl h1) h2) h3) h4
  exact c8_concurrent_submits_linearizable replaceGetUpdates oneBody psetInit c8s4
    hreach (by decide)

/-- C9: the coordinator contract — start the server, repartition, dispatch
workers and block, fetch final parameters, install them if non-empty, stop the
server.  On every instance built by the constructors, `train` starts the
server and repartitions, then raises `AttributeError` reading the
never-assigned `self.loss` while building the `SparkWorker`; it never
dispatches workers, never fetches final parameters, and never stops the
server. -/
theorem c9_coordinator_train_raises_attribute_error (km : KerasModel)
    (ocfg host : String) (port nw : Nat) (tc : TrainConfig)
    (parts : List (List Record)) :
    SparkModel.train (sparkModel_init km ocfg host port nw) tc parts =
      ([CEvent.startServer, CEvent.repartition nw], some (.attributeError "loss")) ∧
    CEvent.stopServer ∉ (SparkModel.train (sparkModel_init km ocfg host port nw) tc parts).1 ∧
    CEvent.fetchFinal ∉ (SparkModel.train (sparkModel_init km ocfg host port nw) tc parts).1 := by
  have h : SparkModel.train (sparkModel_init km ocfg host port nw) tc parts =
      ([CEvent.startServer, CEvent.repartition nw], some (.attributeError "loss")) := rfl
  refine ⟨h, ?_, ?_⟩ <;> rw [h] <;> simp

/-- C10: on every `DistributedModel` or `SparkModel` built by the provided
constructors, `get_config` fails with `AttributeError`, because it reads
`self.mode` and no constructor or other statement of the module ever assigns
that attribute. -/
theorem c10_get_config_raises_attribute_error (km : KerasModel) (ocfg host : String)
    (port nw : Nat) :
    DistributedModel.get_config (distributedModel_init km ocfg host port) =
      .error (.attributeError "mode") ∧
    SparkModel.get_config (sparkModel_init km ocfg host port nw) =
      .error (.attributeError "mode") :=
  ⟨rfl, rfl⟩

end DistKeras
